import Mathlib

/-!
# Shallow embedding of `webscraper.py` (crawl frontier and relevance ranking)

The definitions below translate the crawl driver of `src/webscraper.py`
(function `crawl`, lines 25-151, together with its nested helper
`is_valid_url`) into Lean.  Relevance scores, computed with Python floats
in the source, are modelled with exact rationals (`ℚ`); Python string
containment (`needle in hay`) is modelled by an explicit substring scan
on the character list; the external collaborators (HTTP fetching, HTML
text extraction, link extraction) are modelled by a `FetchOutcome`
environment `Url → FetchOutcome` whose `success` case already carries the
extracted title, text and absolute outbound links, as dictated by the
source's use of `requests` and `BeautifulSoup`.  A `KeyboardInterrupt`
arriving during the network request is modelled as the `interrupt`
outcome; the crawl loop then propagates it as `Except.error ()`, carrying
no data, exactly as the re-`raise` on line 146 does.
-/

namespace Webscraper

/-- A parsed absolute URL: the source only ever inspects `urlparse(url).netloc`
and `urlparse(url).path`, and otherwise compares URLs by equality, so a URL is
modelled by those two components. -/
structure Url where
  netloc : String
  path : String
deriving DecidableEq, Repr

/-- An outbound link as produced by the external link extraction
(`soup.find_all('a', href=True)` plus `urljoin`): the resolved absolute URL
and the raw link text (`link.get_text()`). -/
structure Link where
  url : Url
  text : String
deriving DecidableEq, Repr

/-- One entry of `content_list`: the dict built on lines 105-110 / 135-140. -/
structure PageRecord where
  url : Url
  title : String
  text : String
  relevance : ℚ
deriving DecidableEq, Repr

/-- Result of delegating one URL to the external fetch + extraction pipeline
(lines 71-87).  `failure` is a `requests.RequestException` carrying its
message; `interrupt` is a `KeyboardInterrupt` arriving during the request. -/
inductive FetchOutcome where
  | failure (msg : String)
  | success (content_type : String) (title : String) (text : String) (links : List Link)
  | interrupt
deriving DecidableEq, Repr

/-- The mutable state of the crawl loop: `queue` (line 46), `visited`
(line 47), `discovered_urls` (line 48, a set modelled as a duplicate-free
list), `content_list` (line 49) and `url_scores` (line 50, a dict modelled as
an association list whose first matching key wins). -/
structure CrawlState where
  queue : List Url
  visited : List Url
  discovered_urls : List Url
  content_list : List PageRecord
  url_scores : List (Url × ℚ)
deriving DecidableEq, Repr

/-- Python's `str.lower()`: lower-case every character.  (Stated on the
character list of the string so that it evaluates inside the kernel.) -/
def lowerStr (s : String) : String :=
  ⟨s.data.map Char.toLower⟩

/-- Python's `str.strip()`: drop leading and trailing whitespace. -/
def trimStr (s : String) : String :=
  ⟨((s.data.dropWhile Char.isWhitespace).reverse.dropWhile Char.isWhitespace).reverse⟩

/-- Does the first character list start the second one? -/
def leadsWith : List Char → List Char → Bool
  | [], _ => true
  | _ :: _, [] => false
  | a :: as, b :: bs => a == b && leadsWith as bs

/-- Substring scan on character lists: Python's `needle in hay`. -/
def strInList (needle : List Char) : List Char → Bool
  | [] => leadsWith needle []
  | b :: bs => leadsWith needle (b :: bs) || strInList needle bs

/-- Python's string containment `needle in hay`. -/
def strIn (needle hay : String) : Bool :=
  strInList needle.data hay.data

/-- The fixed denylist of path substrings, lines 30-35 (note `'/feed'` is
listed twice in the source; the duplicate is kept). -/
def irrelevant_patterns : List String :=
  ["/changelog", "/updates", "/archive", "/log",
   "/privacy", "/terms", "/sitemap", "/feed",
   "/wp-content", "/wp-includes", "/tag/", "/category/",
   "/author/", "/comment", "/trackback", "/feed", "/rss"]

/-- `is_valid_url` (lines 26-40): reject when the lower-cased path contains a
denylisted substring, otherwise require the exact target domain and that the
URL has not been visited. -/
def is_valid_url (base_domain : String) (url : Url) (visited_set : List Url) : Bool :=
  let path := lowerStr url.path
  if irrelevant_patterns.any (fun pattern => strIn pattern path) then
    false
  else
    url.netloc == base_domain && !(visited_set.contains url)

/-- Page relevance (lines 89-97): a length-based base score capped at 1,
blended `0.7 / 0.3` with the fraction of keywords found (case-insensitively)
in the text when the keyword list is non-empty. -/
def scorePage (text : String) (keywords : List String) : ℚ :=
  let relevance_score : ℚ := min 1 ((text.length : ℚ) / 5000)
  if keywords.isEmpty then relevance_score
  else
    let text_lower := lowerStr text
    let keyword_matches := keywords.countP (fun keyword => strIn (lowerStr keyword) text_lower)
    let keyword_score : ℚ := min 1 ((keyword_matches : ℚ) / (keywords.length : ℚ))
    7/10 * relevance_score + 3/10 * keyword_score

/-- Link score (lines 119-124): the parent page's relevance decayed by `0.8`,
plus a flat `0.2` boost when the keyword list is non-empty and some keyword
occurs in the trimmed, lower-cased link text. -/
def scoreLink (parentScore : ℚ) (linkText : String) (keywords : List String) : ℚ :=
  let link_text := lowerStr (trimStr linkText)
  let link_score := parentScore * (4/5)
  if !keywords.isEmpty && keywords.any (fun keyword => strIn (lowerStr keyword) link_text) then
    link_score + 1/5
  else
    link_score

/-- `url_scores.get(u, 0.0)` (line 60). -/
def getScore (url_scores : List (Url × ℚ)) (u : Url) : ℚ :=
  match url_scores.find? (fun p => decide (p.1 = u)) with
  | some p => p.2
  | none => 0

/-- Processing of one discovered link, lines 113-130: when admissible, record
a score on first discovery only, add to the discovered set, and append to the
queue unless already visited. -/
def offerLink (base_domain : String) (keywords : List String) (relevance_score : ℚ)
    (st : CrawlState) (link : Link) : CrawlState :=
  let absolute_url := link.url
  if is_valid_url base_domain absolute_url st.visited then
    let st1 :=
      if absolute_url ∈ st.discovered_urls then st
      else { st with url_scores :=
               (absolute_url, scoreLink relevance_score link.text keywords) :: st.url_scores }
    let st2 :=
      { st1 with discovered_urls :=
          if absolute_url ∈ st1.discovered_urls then st1.discovered_urls
          else st1.discovered_urls ++ [absolute_url] }
    if absolute_url ∈ st2.visited then st2
    else { st2 with queue := st2.queue ++ [absolute_url] }
  else st

/-- A whole sequence of link discoveries, each with the relevance of the page
it was found on, folded over the state: the `for link in soup.find_all(...)`
loop iterated across pages. -/
def offerAll (base_domain : String) (keywords : List String)
    (offers : List (ℚ × Link)) (st : CrawlState) : CrawlState :=
  offers.foldl (fun s pr => offerLink base_domain keywords pr.1 s pr.2) st

/-- Stable descending insertion by a rational key: an element is placed after
every earlier element whose key is at least as large, so elements with equal
keys keep their original relative order — the behaviour of Python's stable
`list.sort(key=..., reverse=True)`. -/
def insertDescBy (key : α → ℚ) (a : α) : List α → List α
  | [] => [a]
  | b :: bs => if key a < key b then b :: insertDescBy key a bs else a :: b :: bs

/-- Insertion sort with `insertDescBy`: a stable descending sort by a
rational key, the behaviour of Python's `list.sort(key=..., reverse=True)`. -/
def sortDescBy (key : α → ℚ) : List α → List α
  | [] => []
  | a :: as => insertDescBy key a (sortDescBy key as)

/-- The queue reordering of lines 57-61: sort pending URLs by their recorded
score (default 0), highest first. -/
def sortQueue (url_scores : List (Url × ℚ)) (queue : List Url) : List Url :=
  sortDescBy (getScore url_scores) queue

/-- The final ordering of line 149: `content_list` sorted by relevance,
highest first. -/
def sortByRelevance (content_list : List PageRecord) : List PageRecord :=
  sortDescBy PageRecord.relevance content_list

/-- Processing of one popped, not-yet-visited URL (lines 67-142): mark it
visited, then dispatch on the fetch outcome.  A `KeyboardInterrupt` becomes
`Except.error ()` — the partial state is not part of the propagated value,
matching the bare re-`raise` of line 146.  A `RequestException` appends the
zero-relevance error record of lines 135-140.  A non-HTML response is skipped
(line 76).  A low-relevance page is skipped (lines 100-102).  Otherwise the
page record is appended and every outbound link is offered to the frontier. -/
def crawlVisit (fetch : Url → FetchOutcome) (base_domain : String) (keywords : List String)
    (url : Url) (st : CrawlState) : Except Unit CrawlState :=
  let stv := { st with visited := st.visited ++ [url] }
  match fetch url with
  | .interrupt => .error ()
  | .failure msg =>
      .ok { stv with content_list := stv.content_list ++
              [{ url := url, title := "Error",
                 text := "Failed to fetch content - " ++ msg, relevance := 0 }] }
  | .success content_type title text links =>
      if !(strIn "text/html" content_type) then .ok stv
      else
        let relevance_score := scorePage text keywords
        if relevance_score < 1/5 then .ok stv
        else
          let str := { stv with content_list := stv.content_list ++
                        [{ url := url, title := title, text := text,
                           relevance := relevance_score }] }
          .ok (links.foldl (offerLink base_domain keywords relevance_score) str)

/-- The crawl loop of lines 55-142, with an explicit fuel bound (the Python
loop terminates, but the recursion is phrased on fuel; `none` means the fuel
ran out before the loop reached its exit condition).  The loop exits, with the
current state, as soon as the queue is empty or the discovered set has reached
`max_pages`; otherwise the queue is reordered when it holds more than 10
entries, the head is popped, already-visited heads are skipped, and the head
is processed by `crawlVisit`. -/
def crawlLoop (fetch : Url → FetchOutcome) (base_domain : String) (max_pages : Nat)
    (keywords : List String) : Nat → CrawlState → Option (Except Unit CrawlState)
  | 0, _ => none
  | fuel + 1, st =>
    if st.queue = [] ∨ max_pages ≤ st.discovered_urls.length then some (.ok st)
    else
      match (if 10 < st.queue.length then sortQueue st.url_scores st.queue else st.queue) with
      | [] => some (.ok st)
      | url :: rest =>
        if url ∈ st.visited then
          crawlLoop fetch base_domain max_pages keywords fuel { st with queue := rest }
        else
          match crawlVisit fetch base_domain keywords url { st with queue := rest } with
          | .error e => some (.error e)
          | .ok st' => crawlLoop fetch base_domain max_pages keywords fuel st'

/-- The initial state of lines 46-50: the seed URL queued, discovered, and
given score 1.0. -/
def initState (start_url : Url) : CrawlState :=
  { queue := [start_url], visited := [], discovered_urls := [start_url],
    content_list := [], url_scores := [(start_url, 1)] }

/-- The whole of `crawl` (lines 25-151): run the loop from the initial state
and sort the collected records by relevance descending.  `some (.ok records)`
models a normal return, `some (.error ())` a propagated interruption. -/
def crawl (fetch : Url → FetchOutcome) (start_url : Url) (base_domain : String)
    (max_pages : Nat) (keywords : List String) (fuel : Nat) :
    Option (Except Unit (List PageRecord)) :=
  (crawlLoop fetch base_domain max_pages keywords fuel (initState start_url)).map
    (Except.map (fun st => sortByRelevance st.content_list))

/-! ### Concrete fixtures

Small closed instances used to exercise the model: a three-page site on
`example.com` whose seed page matches the keyword `"x"` and links to two
further pages, and a variant whose second fetch is interrupted. -/

/-- The seed URL of the fixture site. -/
def urlA : Url := { netloc := "example.com", path := "/a" }

/-- A page linked from the seed. -/
def urlB : Url := { netloc := "example.com", path := "/b" }

/-- Another page linked from the seed. -/
def urlC : Url := { netloc := "example.com", path := "/c" }

/-- Fixture fetcher: the seed page is HTML with text `"x"` and links to
`urlB` and `urlC`; every other URL fails with a connection error. -/
def fetchSat : Url → FetchOutcome := fun u =>
  if u = urlA then
    .success "text/html" "A" "x" [{ url := urlB, text := "" }, { url := urlC, text := "" }]
  else .failure "ConnectionError"

/-- Fixture fetcher: the seed page is HTML with text `"x"` and links to
`urlB`; fetching any other URL is hit by a keyboard interrupt. -/
def fetchInt : Url → FetchOutcome := fun u =>
  if u = urlA then
    .success "text/html" "A" "x" [{ url := urlB, text := "" }]
  else .interrupt

/-- Fixture fetcher: every URL answers successfully with a PDF content type. -/
def fetchPdf : Url → FetchOutcome := fun _ =>
  .success "application/pdf" "T" "" []

/-- A page text of 5000 characters containing the keyword, on which
`scorePage` attains its maximum. -/
def txt5000 : String := ⟨List.replicate 5000 'a'⟩

/-- The state in which the fixture crawl with `max_pages = 2` stops: the seed
was visited and recorded, `urlB` and `urlC` were discovered and queued, and
the loop exited because three URLs had been discovered. -/
def satFinal : CrawlState :=
  { queue := [urlB, urlC],
    visited := [urlA],
    discovered_urls := [urlA, urlB, urlC],
    content_list := [{ url := urlA, title := "A", text := "x", relevance := 15007/50000 }],
    url_scores := [(urlC, 15007/62500), (urlB, 15007/62500), (urlA, 1)] }

/-- Decidable equality for fetch results, so that closed runs of the crawl
can be checked by evaluation. -/
instance exceptDecEq {ε α : Type} [DecidableEq ε] [DecidableEq α] :
    DecidableEq (Except ε α) := fun x y =>
  match x, y with
  | .ok a, .ok b =>
      if h : a = b then isTrue (by rw [h]) else isFalse (by intro hc; cases hc; exact h rfl)
  | .ok _, .error _ => isFalse (by intro hc; cases hc)
  | .error _, .ok _ => isFalse (by intro hc; cases hc)
  | .error d, .error e =>
      if h : d = e then isTrue (by rw [h]) else isFalse (by intro hc; cases hc; exact h rfl)

attribute [local semireducible] Rat.mul Rat.add Rat.inv

/-- All recorded relevances lie in the unit interval. -/
def recordsInUnit (l : List PageRecord) : Prop :=
  ∀ r ∈ l, 0 ≤ r.relevance ∧ r.relevance ≤ 1

/-! ### Helper lemmas -/

theorem mem_insertDescBy (key : α → ℚ) (a x : α) (l : List α) :
    x ∈ insertDescBy key a l ↔ x = a ∨ x ∈ l := by
  induction l with
  | nil => simp [insertDescBy]
  | cons b bs ih =>
      simp only [insertDescBy]
      split
      · simp only [List.mem_cons, ih]
        tauto
      · simp only [List.mem_cons]
        try tauto

theorem pairwise_insertDescBy (key : α → ℚ) (a : α) (l : List α)
    (h : l.Pairwise (fun x y => key y ≤ key x)) :
    (insertDescBy key a l).Pairwise (fun x y => key y ≤ key x) := by
  induction l with
  | nil => simp [insertDescBy]
  | cons b bs ih =>
      rcases List.pairwise_cons.mp h with ⟨hb, hbs⟩
      simp only [insertDescBy]
      split
      · rename_i hlt
        refine List.pairwise_cons.mpr ⟨?_, ih hbs⟩
        intro y hy
        rcases (mem_insertDescBy key a y bs).mp hy with rfl | hmem
        · exact le_of_lt hlt
        · exact hb y hmem
      · rename_i hnlt
        refine List.pairwise_cons.mpr ⟨?_, h⟩
        intro y hy
        rcases List.mem_cons.mp hy with rfl | hmem
        · exact not_lt.mp hnlt
        · exact le_trans (hb y hmem) (not_lt.mp hnlt)

theorem pairwise_sortDescBy (key : α → ℚ) (l : List α) :
    (sortDescBy key l).Pairwise (fun x y => key y ≤ key x) := by
  induction l with
  | nil => simp [sortDescBy]
  | cons a as ih => exact pairwise_insertDescBy key a _ ih

theorem length_insertDescBy (key : α → ℚ) (a : α) (l : List α) :
    (insertDescBy key a l).length = l.length + 1 := by
  induction l with
  | nil => rfl
  | cons b bs ih =>
      simp only [insertDescBy]
      split <;> simp [ih]

theorem length_sortDescBy (key : α → ℚ) (l : List α) :
    (sortDescBy key l).length = l.length := by
  induction l with
  | nil => rfl
  | cons a as ih => simp [sortDescBy, length_insertDescBy, ih]

theorem scorePage_nonneg (text : String) (keywords : List String) :
    0 ≤ scorePage text keywords := by
  unfold scorePage
  dsimp only
  have h1 : (0:ℚ) ≤ min 1 ((text.length : ℚ) / 5000) :=
    le_min (by norm_num) (div_nonneg (Nat.cast_nonneg _) (by norm_num))
  split
  · exact h1
  · have h2 : (0:ℚ) ≤ min 1
        (((keywords.countP fun keyword => strIn (lowerStr keyword) (lowerStr text)) : ℚ) /
          (keywords.length : ℚ)) :=
      le_min (by norm_num) (div_nonneg (by positivity) (Nat.cast_nonneg _))
    have := mul_nonneg (show (0:ℚ) ≤ 7/10 by norm_num) h1
    have := mul_nonneg (show (0:ℚ) ≤ 3/10 by norm_num) h2
    linarith

theorem scorePage_le_one (text : String) (keywords : List String) :
    scorePage text keywords ≤ 1 := by
  unfold scorePage
  dsimp only
  have h1 : min 1 ((text.length : ℚ) / 5000) ≤ 1 := min_le_left _ _
  have h1n : (0:ℚ) ≤ min 1 ((text.length : ℚ) / 5000) :=
    le_min (by norm_num) (div_nonneg (Nat.cast_nonneg _) (by norm_num))
  split
  · exact h1
  · have h2 : min 1
        (((keywords.countP fun keyword => strIn (lowerStr keyword) (lowerStr text)) : ℚ) /
          (keywords.length : ℚ)) ≤ 1 := min_le_left _ _
    have h2n : (0:ℚ) ≤ min 1
        (((keywords.countP fun keyword => strIn (lowerStr keyword) (lowerStr text)) : ℚ) /
          (keywords.length : ℚ)) :=
      le_min (by norm_num) (div_nonneg (by positivity) (Nat.cast_nonneg _))
    nlinarith

theorem scoreLink_le_one (p : ℚ) (lt : String) (kws : List String) (hp : p ≤ 1) :
    scoreLink p lt kws ≤ 1 := by
  unfold scoreLink
  dsimp only
  split
  · nlinarith
  · nlinarith

theorem getScore_cons (v : Url) (s : ℚ) (scores : List (Url × ℚ)) (u : Url) :
    getScore ((v, s) :: scores) u = if v = u then s else getScore scores u := by
  unfold getScore
  by_cases h : v = u
  · rw [List.find?_cons_of_pos _ (by simpa using h), if_pos h]
  · rw [List.find?_cons_of_neg _ (by simpa using h), if_neg h]

theorem offerLink_content_list (dom : String) (kws : List String) (rel : ℚ)
    (st : CrawlState) (l : Link) :
    (offerLink dom kws rel st l).content_list = st.content_list := by
  unfold offerLink
  dsimp only
  repeat' split
  all_goals rfl

theorem offerLink_visited (dom : String) (kws : List String) (rel : ℚ)
    (st : CrawlState) (l : Link) :
    (offerLink dom kws rel st l).visited = st.visited := by
  unfold offerLink
  dsimp only
  repeat' split
  all_goals rfl

theorem foldl_offerLink_content_list (dom : String) (kws : List String) (rel : ℚ)
    (links : List Link) (st : CrawlState) :
    (links.foldl (offerLink dom kws rel) st).content_list = st.content_list := by
  induction links generalizing st with
  | nil => rfl
  | cons l ls ih => rw [List.foldl_cons, ih, offerLink_content_list]

theorem is_valid_url_not_visited (dom : String) (u : Url) (visited : List Url)
    (h : is_valid_url dom u visited = true) : u ∉ visited := by
  unfold is_valid_url at h
  dsimp only at h
  split at h
  · cases h
  · rcases (by simpa using h : u.netloc = dom ∧ u ∉ visited) with ⟨-, hnv⟩
    exact hnv

theorem crawlVisit_records (fetch : Url → FetchOutcome) (dom : String) (kws : List String)
    (u : Url) (st st' : CrawlState)
    (hinv : recordsInUnit st.content_list)
    (h : crawlVisit fetch dom kws u st = .ok st') :
    recordsInUnit st'.content_list := by
  unfold crawlVisit at h
  dsimp only at h
  cases hf : fetch u with
  | interrupt => rw [hf] at h; dsimp only at h; cases h
  | failure msg =>
      rw [hf] at h
      dsimp only at h
      cases h
      intro r hr
      rcases List.mem_append.mp hr with h1 | h2
      · exact hinv r h1
      · rcases List.mem_singleton.mp h2 with rfl
        exact ⟨le_refl 0, by norm_num⟩
  | success ct title text links =>
      rw [hf] at h
      dsimp only at h
      split at h
      · cases h; exact hinv
      · split at h
        · cases h; exact hinv
        · cases h
          intro r hr
          rw [foldl_offerLink_content_list] at hr
          rcases List.mem_append.mp hr with h1 | h2
          · exact hinv r h1
          · rcases List.mem_singleton.mp h2 with rfl
            exact ⟨scorePage_nonneg text kws, scorePage_le_one text kws⟩

theorem crawlLoop_records (fetch : Url → FetchOutcome) (dom : String) (maxp : Nat)
    (kws : List String) :
    ∀ (fuel : Nat) (st final : CrawlState), recordsInUnit st.content_list →
      crawlLoop fetch dom maxp kws fuel st = some (.ok final) →
      recordsInUnit final.content_list := by
  intro fuel
  induction fuel with
  | zero => intro st final _ h; cases h
  | succ n ih =>
      intro st final hinv h
      rw [crawlLoop] at h
      split at h
      · simp only [Option.some.injEq, Except.ok.injEq] at h
        subst h; exact hinv
      · split at h
        · simp only [Option.some.injEq, Except.ok.injEq] at h
          subst h; exact hinv
        · split at h
          · exact ih _ _ (by exact hinv) h
          · split at h
            · cases h
            · rename_i st' heq
              exact ih _ _ (crawlVisit_records _ _ _ _ _ _ (by exact hinv) heq) h

theorem crawlLoop_exit (fetch : Url → FetchOutcome) (dom : String) (maxp : Nat)
    (kws : List String) :
    ∀ (fuel : Nat) (st final : CrawlState),
      crawlLoop fetch dom maxp kws fuel st = some (.ok final) →
      final.queue = [] ∨ maxp ≤ final.discovered_urls.length := by
  intro fuel
  induction fuel with
  | zero => intro st final h; cases h
  | succ n ih =>
      intro st final h
      rw [crawlLoop] at h
      split at h
      · rename_i hcond
        simp only [Option.some.injEq, Except.ok.injEq] at h
        subst h; exact hcond
      · rename_i hcond
        split at h
        · rename_i hnil
          exfalso
          push_neg at hcond
          rcases hcond with ⟨hq, -⟩
          by_cases hlen : 10 < st.queue.length
          · rw [if_pos hlen] at hnil
            have := length_sortDescBy (getScore st.url_scores) st.queue
            rw [sortQueue] at hnil
            rw [hnil] at this
            exact hq (List.length_eq_zero.mp this.symm)
          · rw [if_neg hlen] at hnil
            exact hq hnil
        · split at h
          · exact ih _ _ h
          · split at h
            · cases h
            · exact ih _ _ h

theorem crawlLoop_succ_visit (fetch : Url → FetchOutcome) (dom : String) (maxp : Nat)
    (kws : List String) (fuel : Nat) (st st₂ : CrawlState) (u : Url) (rest : List Url)
    (hne : ¬(st.queue = [] ∨ maxp ≤ st.discovered_urls.length))
    (hq : (if 10 < st.queue.length then sortQueue st.url_scores st.queue else st.queue) = u :: rest)
    (hnv : u ∉ st.visited)
    (hv : crawlVisit fetch dom kws u { st with queue := rest } = .ok st₂) :
    crawlLoop fetch dom maxp kws (fuel + 1) st = crawlLoop fetch dom maxp kws fuel st₂ := by
  rw [crawlLoop, if_neg hne, hq]
  dsimp only
  rw [if_neg hnv, hv]

theorem offerLink_discovered_sub (dom : String) (kws : List String) (rel : ℚ)
    (st : CrawlState) (l : Link) (u : Url) (h : u ∈ st.discovered_urls) :
    u ∈ (offerLink dom kws rel st l).discovered_urls := by
  unfold offerLink
  dsimp only
  repeat' split
  all_goals simp [h]

theorem offerLink_nodup (dom : String) (kws : List String) (rel : ℚ)
    (st : CrawlState) (l : Link) (h : st.discovered_urls.Nodup) :
    (offerLink dom kws rel st l).discovered_urls.Nodup := by
  unfold offerLink
  dsimp only
  by_cases hval : is_valid_url dom l.url st.visited = true
  · rw [if_pos hval]
    by_cases hd : l.url ∈ st.discovered_urls
    · rw [if_pos hd]
      try dsimp only
      rw [if_pos hd]
      try dsimp only
      split <;> simpa using h
    · rw [if_neg hd]
      try dsimp only
      rw [if_neg hd]
      try dsimp only
      have happ : (st.discovered_urls ++ [l.url]).Nodup := by
        simp [List.nodup_append, h, hd]
      split <;> simpa using happ
  · rw [if_neg hval]
    exact h

theorem offerLink_getScore_of_discovered (dom : String) (kws : List String) (rel : ℚ)
    (st : CrawlState) (l : Link) (u : Url) (h : u ∈ st.discovered_urls) :
    getScore (offerLink dom kws rel st l).url_scores u = getScore st.url_scores u := by
  unfold offerLink
  dsimp only
  by_cases hval : is_valid_url dom l.url st.visited = true
  · rw [if_pos hval]
    by_cases hd : l.url ∈ st.discovered_urls
    · rw [if_pos hd]
      try dsimp only
      rw [if_pos hd]
      try dsimp only
      split <;> rfl
    · rw [if_neg hd]
      try dsimp only
      rw [if_neg hd]
      try dsimp only
      have hne : l.url ≠ u := fun he => hd (he ▸ h)
      split <;> (dsimp only; rw [getScore_cons, if_neg hne])
  · rw [if_neg hval]

theorem offerLink_first_score (dom : String) (kws : List String) (rel : ℚ)
    (st : CrawlState) (l : Link) (u : Url) (hl : l.url = u)
    (hd : u ∉ st.discovered_urls) (hv : is_valid_url dom u st.visited = true) :
    getScore (offerLink dom kws rel st l).url_scores u = scoreLink rel l.text kws
    ∧ u ∈ (offerLink dom kws rel st l).discovered_urls := by
  subst hl
  unfold offerLink
  try dsimp only
  rw [if_pos hv, if_neg hd]
  try dsimp only
  rw [if_neg hd]
  try dsimp only
  rw [if_neg (is_valid_url_not_visited dom l.url st.visited hv)]
  dsimp only
  constructor
  · rw [getScore_cons, if_pos rfl]
  · simp

theorem offerLink_requeue (dom : String) (kws : List String) (rel : ℚ)
    (st : CrawlState) (l : Link) (u : Url) (hl : l.url = u)
    (hd : u ∈ st.discovered_urls) (hv : is_valid_url dom u st.visited = true) :
    offerLink dom kws rel st l = { st with queue := st.queue ++ [u] } := by
  subst hl
  unfold offerLink
  try dsimp only
  rw [if_pos hv, if_pos hd]
  try dsimp only
  rw [if_pos hd]
  try dsimp only
  rw [if_neg (is_valid_url_not_visited dom l.url st.visited hv)]

theorem offerAll_nodup (dom : String) (kws : List String) (offers : List (ℚ × Link))
    (st : CrawlState) (h : st.discovered_urls.Nodup) :
    (offerAll dom kws offers st).discovered_urls.Nodup := by
  induction offers generalizing st with
  | nil => exact h
  | cons pr prs ih =>
      unfold offerAll
      rw [List.foldl_cons]
      exact ih _ (offerLink_nodup dom kws pr.1 st pr.2 h)

theorem offerAll_getScore_of_discovered (dom : String) (kws : List String)
    (offers : List (ℚ × Link)) (st : CrawlState) (u : Url) (h : u ∈ st.discovered_urls) :
    getScore (offerAll dom kws offers st).url_scores u = getScore st.url_scores u
    ∧ u ∈ (offerAll dom kws offers st).discovered_urls := by
  induction offers generalizing st with
  | nil => exact ⟨rfl, h⟩
  | cons pr prs ih =>
      unfold offerAll
      rw [List.foldl_cons]
      rcases ih (offerLink dom kws pr.1 st pr.2)
        (offerLink_discovered_sub dom kws pr.1 st pr.2 u h) with ⟨h1, h2⟩
      exact ⟨h1.trans (offerLink_getScore_of_discovered dom kws pr.1 st pr.2 u h), h2⟩

theorem crawlVisit_failure_eq (fetch : Url → FetchOutcome) (dom : String) (kws : List String)
    (u : Url) (st : CrawlState) (msg : String) (hf : fetch u = .failure msg) :
    crawlVisit fetch dom kws u st = .ok { st with
      visited := st.visited ++ [u],
      content_list := st.content_list ++
        [{ url := u, title := "Error", text := "Failed to fetch content - " ++ msg,
           relevance := 0 }] } := by
  unfold crawlVisit
  rw [hf]

theorem crawlVisit_non_html_eq (fetch : Url → FetchOutcome) (dom : String) (kws : List String)
    (u : Url) (st : CrawlState) (ct title text : String) (links : List Link)
    (hf : fetch u = .success ct title text links) (hct : strIn "text/html" ct = false) :
    crawlVisit fetch dom kws u st = .ok { st with visited := st.visited ++ [u] } := by
  unfold crawlVisit
  rw [hf]
  dsimp only
  have hc : (!(strIn "text/html" ct)) = true := by rw [hct]; rfl
  rw [if_pos hc]

theorem is_valid_url_denylist (dom : String) (u : Url) (visited : List Url) (pat : String)
    (hpat : pat ∈ irrelevant_patterns) (hsub : strIn pat (lowerStr u.path) = true) :
    is_valid_url dom u visited = false := by
  unfold is_valid_url
  dsimp only
  rw [if_pos (List.any_eq_true.mpr ⟨pat, hpat, hsub⟩)]

/-! ### Claim theorems -/

/-- C4: for every fetched page whose computed relevance is strictly below
`0.2`, the visit leaves the crawl state unchanged except for marking the URL
visited: no `PageRecord` is appended, and none of the page's outbound links
is extracted, scored, or offered to the frontier. -/
theorem low_relevance_page_dead_end (fetch : Url → FetchOutcome) (dom : String)
    (kws : List String) (u : Url) (ct title text : String) (links : List Link)
    (st : CrawlState)
    (hf : fetch u = .success ct title text links)
    (hhtml : strIn "text/html" ct = true)
    (hlow : scorePage text kws < 1/5) :
    crawlVisit fetch dom kws u st = .ok { st with visited := st.visited ++ [u] } := by
  unfold crawlVisit
  rw [hf]
  dsimp only
  have hc : (!(strIn "text/html" ct)) = false := by rw [hhtml]; rfl
  rw [hc]
  try dsimp only
  rw [if_pos hlow, ite_self]

/-- C4 witness: the seed page of the fixture site has text of one character
and, with no keywords, relevance `1/5000 < 0.2`, so visiting it only marks it
visited. -/
theorem low_relevance_page_dead_end_w :
    crawlVisit fetchSat "example.com" [] urlA (initState urlA) =
      .ok { initState urlA with visited := (initState urlA).visited ++ [urlA] } :=
  low_relevance_page_dead_end fetchSat "example.com" [] urlA "text/html" "A" "x"
    [{ url := urlB, text := "" }, { url := urlC, text := "" }] (initState urlA)
    (by decide) (by decide) (by decide)

/-- C5: `scorePage` always lies in `[0, 1]`; a visit step preserves the
invariant that every recorded relevance lies in `[0, 1]`; the crawl loop
preserves it to its final state; and a transport failure appends a record
whose relevance is exactly `0`. -/
theorem relevance_in_unit_interval :
    (∀ (text : String) (kws : List String), 0 ≤ scorePage text kws ∧ scorePage text kws ≤ 1)
    ∧ (∀ (fetch : Url → FetchOutcome) (dom : String) (kws : List String) (u : Url)
         (st st' : CrawlState), recordsInUnit st.content_list →
         crawlVisit fetch dom kws u st = .ok st' → recordsInUnit st'.content_list)
    ∧ (∀ (fetch : Url → FetchOutcome) (dom : String) (maxp : Nat) (kws : List String)
         (fuel : Nat) (st final : CrawlState), recordsInUnit st.content_list →
         crawlLoop fetch dom maxp kws fuel st = some (.ok final) →
         recordsInUnit final.content_list)
    ∧ (∀ (fetch : Url → FetchOutcome) (dom : String) (kws : List String) (u : Url)
         (st : CrawlState) (msg : String), fetch u = .failure msg →
         crawlVisit fetch dom kws u st = .ok { st with
           visited := st.visited ++ [u],
           content_list := st.content_list ++
             [{ url := u, title := "Error", text := "Failed to fetch content - " ++ msg,
                relevance := 0 }] }) :=
  ⟨fun text kws => ⟨scorePage_nonneg text kws, scorePage_le_one text kws⟩,
   fun fetch dom kws u st st' hinv h => crawlVisit_records fetch dom kws u st st' hinv h,
   fun fetch dom maxp kws fuel st final hinv h =>
     crawlLoop_records fetch dom maxp kws fuel st final hinv h,
   fun fetch dom kws u st msg hf => crawlVisit_failure_eq fetch dom kws u st msg hf⟩

/-- C5 witness: the fixture crawl that stops saturated has every recorded
relevance in the unit interval. -/
theorem relevance_in_unit_interval_w :
    recordsInUnit satFinal.content_list :=
  relevance_in_unit_interval.2.2.1 fetchSat "example.com" 2 ["x"] 10 (initState urlA) satFinal
    (fun r hr => absurd hr (by simp [initState])) (by decide)

/-- C6 (amended): `scoreLink` is `parentScore * 0.8`, plus a flat `0.2` boost
when the keyword list is non-empty and some keyword occurs case-insensitively
in the trimmed link text; the formula carries no explicit cap and exceeds `1`
for parent scores above `1`, but because `scorePage` never exceeds `1`, a link
score computed from a page relevance never exceeds `1` (it can only attain
exactly `1`). -/
theorem scoreLink_formula_and_capped :
    (∀ (p : ℚ) (lt : String) (kws : List String),
      scoreLink p lt kws = p * (4/5) +
        (if (!kws.isEmpty && kws.any fun keyword =>
              strIn (lowerStr keyword) (lowerStr (trimStr lt))) then 1/5 else 0))
    ∧ (∀ (text lt : String) (kws : List String),
        scoreLink (scorePage text kws) lt kws ≤ 1)
    ∧ (1:ℚ) < scoreLink (3/2) "x" ["x"] := by
  refine ⟨?_, ?_, by decide⟩
  · intro p lt kws
    unfold scoreLink
    dsimp only
    by_cases h : (!kws.isEmpty && kws.any fun keyword =>
        strIn (lowerStr keyword) (lowerStr (trimStr lt))) = true
    · rw [if_pos h, if_pos h]
    · rw [if_neg h, if_neg h, add_zero]
  · intro text lt kws
    exact scoreLink_le_one _ lt kws (scorePage_le_one text kws)

/-- C6 as stated is false at the extreme concrete input: a 5000-character
page containing its keyword gets the maximal page relevance `1`, and a link
from it whose text matches the keyword — the highest parent score `scorePage`
can produce, with the boost applying — scores `1 * 0.8 + 0.2 = 1` exactly,
not more than `1.0`. -/
theorem scoreLink_from_page_score_never_exceeds_one :
    scorePage txt5000 ["a"] = 1
    ∧ scoreLink (scorePage txt5000 ["a"]) "a" ["a"] = 1
    ∧ ¬ (1 < scoreLink (scorePage txt5000 ["a"]) "a" ["a"]) := by
  have hdata : txt5000.data = 'a' :: List.replicate 4999 'a' := by
    show List.replicate 5000 'a' = _
    rw [show (5000 : Nat) = 4999 + 1 from rfl, List.replicate_succ]
  have hlower : lowerStr txt5000 = txt5000 := by
    show String.mk (txt5000.data.map Char.toLower) = txt5000
    show String.mk ((List.replicate 5000 'a').map Char.toLower) = txt5000
    rw [List.map_replicate, show Char.toLower 'a' = 'a' from rfl]
    rfl
  have hlen : txt5000.length = 5000 := by
    show txt5000.data.length = 5000
    show (List.replicate 5000 'a').length = 5000
    rw [List.length_replicate]
  have hin : strIn (lowerStr "a") txt5000 = true := by
    rw [show lowerStr "a" = "a" from rfl]
    show strInList "a".data txt5000.data = true
    rw [hdata]
    show strInList ['a'] ('a' :: List.replicate 4999 'a') = true
    rw [strInList, leadsWith, leadsWith, show ('a' == 'a') = true from rfl,
        Bool.true_and, Bool.true_or]
  have hscore : scorePage txt5000 ["a"] = 1 := by
    unfold scorePage
    dsimp only
    rw [if_neg (by decide : ¬(List.isEmpty ["a"] = true))]
    rw [hlower]
    have hcount : (["a"].countP fun keyword => strIn (lowerStr keyword) txt5000) = 1 := by
      rw [List.countP_cons, List.countP_nil, hin]
      rfl
    rw [hcount, hlen]
    norm_num
  refine ⟨hscore, ?_, ?_⟩
  · rw [hscore]
    decide
  · rw [hscore]
    decide

/-- C7: whenever `crawl` returns normally, the returned collection is
non-increasing in relevance. -/
theorem crawl_output_sorted_by_relevance (fetch : Url → FetchOutcome) (start : Url)
    (dom : String) (maxp : Nat) (kws : List String) (fuel : Nat) (out : List PageRecord)
    (h : crawl fetch start dom maxp kws fuel = some (.ok out)) :
    out.Pairwise (fun a b => b.relevance ≤ a.relevance) := by
  unfold crawl at h
  cases hl : crawlLoop fetch dom maxp kws fuel (initState start) with
  | none => rw [hl] at h; cases h
  | some r =>
      rw [hl] at h
      cases r with
      | error e => simp [Except.map] at h
      | ok st =>
          simp only [Option.map, Except.map, Option.some.injEq, Except.ok.injEq] at h
          subst h
          exact pairwise_sortDescBy PageRecord.relevance st.content_list

/-- C7 witness: the fixture crawl returns a singleton collection, which is
sorted. -/
theorem crawl_output_sorted_by_relevance_w :
    ([{ url := urlA, title := "A", text := "x", relevance := 15007/50000 }] :
      List PageRecord).Pairwise (fun a b => b.relevance ≤ a.relevance) :=
  crawl_output_sorted_by_relevance fetchSat urlA "example.com" 2 ["x"] 10
    [{ url := urlA, title := "A", text := "x", relevance := 15007/50000 }] (by decide)

/-- C9: a transport failure is recorded as a zero-relevance record titled
Error with a text describing the failure; a successful non-HTML response is
skipped with no record at all; and in both cases the loop simply continues
with the resulting state. -/
theorem fetch_failure_recorded_non_html_skipped (fetch : Url → FetchOutcome) (dom : String)
    (kws : List String) (u : Url) (st : CrawlState) (msg ct title text : String)
    (links : List Link) :
    (fetch u = .failure msg → crawlVisit fetch dom kws u st = .ok { st with
        visited := st.visited ++ [u],
        content_list := st.content_list ++
          [{ url := u, title := "Error", text := "Failed to fetch content - " ++ msg,
             relevance := 0 }] })
    ∧ (fetch u = .success ct title text links → strIn "text/html" ct = false →
        crawlVisit fetch dom kws u st = .ok { st with visited := st.visited ++ [u] })
    ∧ (∀ (maxp fuel : Nat) (st₂ : CrawlState) (rst : List Url) (v : Url),
        ¬(st.queue = [] ∨ maxp ≤ st.discovered_urls.length) →
        (if 10 < st.queue.length then sortQueue st.url_scores st.queue else st.queue)
          = v :: rst →
        v ∉ st.visited →
        crawlVisit fetch dom kws v { st with queue := rst } = .ok st₂ →
        crawlLoop fetch dom maxp kws (fuel + 1) st = crawlLoop fetch dom maxp kws fuel st₂) :=
  ⟨fun hf => crawlVisit_failure_eq fetch dom kws u st msg hf,
   fun hf hct => crawlVisit_non_html_eq fetch dom kws u st ct title text links hf hct,
   fun maxp fuel st₂ rst v hne hq hnv hv =>
     crawlLoop_succ_visit fetch dom maxp kws fuel st st₂ v rst hne hq hnv hv⟩

/-- C9 witness: on the fixture site, fetching `urlB` fails and appends the
error record; a PDF response is skipped; and the first loop iteration of the
saturating fixture steps to the recorded state. -/
theorem fetch_failure_recorded_non_html_skipped_w :
    crawlVisit fetchSat "example.com" ["x"] urlB (initState urlA) =
      .ok { initState urlA with
        visited := (initState urlA).visited ++ [urlB],
        content_list := (initState urlA).content_list ++
          [{ url := urlB, title := "Error",
             text := "Failed to fetch content - " ++ "ConnectionError", relevance := 0 }] }
    ∧ crawlVisit fetchPdf "example.com" ["x"] urlA (initState urlA) =
      .ok { initState urlA with visited := (initState urlA).visited ++ [urlA] }
    ∧ crawlLoop fetchSat "example.com" 5 ["x"] (3 + 1) (initState urlA) =
      crawlLoop fetchSat "example.com" 5 ["x"] 3 satFinal := by
  refine ⟨?_, ?_, ?_⟩
  · exact (fetch_failure_recorded_non_html_skipped fetchSat "example.com" ["x"] urlB
      (initState urlA) "ConnectionError" "" "" "" []).1 (by decide)
  · exact (fetch_failure_recorded_non_html_skipped fetchPdf "example.com" ["x"] urlA
      (initState urlA) "" "application/pdf" "T" "" []).2.1 (by decide) (by decide)
  · exact (fetch_failure_recorded_non_html_skipped fetchSat "example.com" ["x"] urlA
      (initState urlA) "" "" "" "" []).2.2 5 3 satFinal [] urlA (by decide) (by decide)
      (by decide) (by decide)

/-- C10: with `max_pages ≤ 1` the loop guard fails before the first pop, so
`crawl` returns the empty collection, the loop returns the untouched initial
state, and no URL — not even the seed — is ever visited. -/
theorem crawl_small_maxpages (fetch : Url → FetchOutcome) (start : Url) (dom : String)
    (kws : List String) (maxp fuel : Nat) (h : maxp ≤ 1) :
    crawl fetch start dom maxp kws (fuel + 1) = some (.ok [])
    ∧ crawlLoop fetch dom maxp kws (fuel + 1) (initState start) = some (.ok (initState start))
    ∧ (initState start).visited = [] := by
  have hloop : crawlLoop fetch dom maxp kws (fuel + 1) (initState start)
      = some (.ok (initState start)) := by
    rw [crawlLoop, if_pos]
    right
    simpa [initState] using h
  refine ⟨?_, hloop, rfl⟩
  unfold crawl
  rw [hloop]
  rfl

/-- C10 witness: a crawl of the fixture site with `max_pages = 1` returns the
empty collection without visiting anything. -/
theorem crawl_small_maxpages_w :
    crawl fetchSat urlA "example.com" 1 ["x"] 1 = some (.ok [])
    ∧ crawlLoop fetchSat "example.com" 1 ["x"] 1 (initState urlA)
        = some (.ok (initState urlA))
    ∧ (initState urlA).visited = [] :=
  crawl_small_maxpages fetchSat urlA "example.com" ["x"] 1 0 (by decide)

/-- C1 is false as stated: on the fixture site with `max_pages = 2`, the loop
returns normally while two URLs are still pending in the queue, and only one
page record was ever produced — the queue is not drained after saturation. -/
theorem crawl_saturated_without_drain :
    (crawlLoop fetchSat "example.com" 2 ["x"] 10 (initState urlA)).map
      (Except.map CrawlState.queue) = some (.ok [urlB, urlC])
    ∧ (crawlLoop fetchSat "example.com" 2 ["x"] 10 (initState urlA)).map
      (Except.map (fun st => st.content_list.length)) = some (.ok 1) :=
  ⟨by decide, by decide⟩

/-- C1 (amended): the crawl loop terminates exactly when, at the top of an
iteration, the queue is empty or the discovered set has reached `max_pages`;
in the saturated case the remaining queue entries are not processed. -/
theorem crawl_exit_empty_or_saturated (fetch : Url → FetchOutcome) (dom : String)
    (maxp : Nat) (kws : List String) (fuel : Nat) (st final : CrawlState)
    (h : crawlLoop fetch dom maxp kws fuel st = some (.ok final)) :
    final.queue = [] ∨ maxp ≤ final.discovered_urls.length :=
  crawlLoop_exit fetch dom maxp kws fuel st final h

/-- C1 witness: the fixture crawl with `max_pages = 2` stops in `satFinal`,
which satisfies the exit disjunction through saturation. -/
theorem crawl_exit_empty_or_saturated_w :
    satFinal.queue = [] ∨ 2 ≤ satFinal.discovered_urls.length :=
  crawl_exit_empty_or_saturated fetchSat "example.com" 2 ["x"] 10 (initState urlA) satFinal
    (by decide)

/-- C2: on the fixture site whose second fetch is interrupted, the crawl
propagates the interruption as a bare error carrying no collection — yet the
same crawl stopped one step earlier holds one record, so a record collected
before the interrupt is lost to the caller. -/
theorem interrupt_discards_partial_output :
    crawlLoop fetchInt "example.com" 10 ["x"] 10 (initState urlA) = some (.error ())
    ∧ (crawlLoop fetchInt "example.com" 2 ["x"] 10 (initState urlA)).map
        (Except.map (fun st => st.content_list.length)) = some (.ok 1) :=
  ⟨by decide, by decide⟩

/-- C3: discovered URLs are never duplicated in the discovered set; once a URL
is discovered its recorded score is never changed by later offers
(first-write-wins); the first admissible offer of a fresh URL records exactly
the link score of that offer; and an admissible re-offer of an already
discovered, unvisited URL only appends it to the queue again. -/
theorem offer_dedup_and_first_write_wins (dom : String) (kws : List String)
    (offers : List (ℚ × Link)) (st : CrawlState) (u : Url) (rel : ℚ) (l : Link) :
    (st.discovered_urls.Nodup → (offerAll dom kws offers st).discovered_urls.Nodup)
    ∧ (u ∈ st.discovered_urls →
        getScore (offerAll dom kws offers st).url_scores u = getScore st.url_scores u
        ∧ u ∈ (offerAll dom kws offers st).discovered_urls)
    ∧ (l.url = u → u ∉ st.discovered_urls → is_valid_url dom u st.visited = true →
        getScore (offerLink dom kws rel st l).url_scores u = scoreLink rel l.text kws
        ∧ u ∈ (offerLink dom kws rel st l).discovered_urls)
    ∧ (l.url = u → u ∈ st.discovered_urls → is_valid_url dom u st.visited = true →
        offerLink dom kws rel st l = { st with queue := st.queue ++ [u] }) :=
  ⟨offerAll_nodup dom kws offers st,
   offerAll_getScore_of_discovered dom kws offers st u,
   fun hl hd hv => offerLink_first_score dom kws rel st l u hl hd hv,
   fun hl hd hv => offerLink_requeue dom kws rel st l u hl hd hv⟩

/-- C3 witness: on the fixture state, offering `urlB` keeps the discovered set
duplicate-free and leaves the seed's score alone; a fresh offer of `urlB`
records its link score; re-offering the already discovered seed only appends
it to the queue. -/
theorem offer_dedup_and_first_write_wins_w :
    (offerAll "example.com" [] [((1:ℚ)/2, { url := urlB, text := "" })]
       (initState urlA)).discovered_urls.Nodup
    ∧ (getScore (offerAll "example.com" [] [((1:ℚ)/2, { url := urlB, text := "" })]
         (initState urlA)).url_scores urlA = getScore (initState urlA).url_scores urlA
       ∧ urlA ∈ (offerAll "example.com" [] [((1:ℚ)/2, { url := urlB, text := "" })]
         (initState urlA)).discovered_urls)
    ∧ (getScore (offerLink "example.com" [] (1/2) (initState urlA)
         { url := urlB, text := "" }).url_scores urlB = scoreLink (1/2) "" []
       ∧ urlB ∈ (offerLink "example.com" [] (1/2) (initState urlA)
         { url := urlB, text := "" }).discovered_urls)
    ∧ offerLink "example.com" [] (1/2) (initState urlA) { url := urlA, text := "" }
        = { initState urlA with queue := (initState urlA).queue ++ [urlA] } := by
  refine ⟨?_, ?_, ?_, ?_⟩
  · exact (offer_dedup_and_first_write_wins "example.com" []
      [((1:ℚ)/2, { url := urlB, text := "" })] (initState urlA) urlA (1/2)
      { url := urlB, text := "" }).1 (by decide)
  · exact (offer_dedup_and_first_write_wins "example.com" []
      [((1:ℚ)/2, { url := urlB, text := "" })] (initState urlA) urlA (1/2)
      { url := urlB, text := "" }).2.1 (by decide)
  · exact (offer_dedup_and_first_write_wins "example.com" []
      [((1:ℚ)/2, { url := urlB, text := "" })] (initState urlA) urlB (1/2)
      { url := urlB, text := "" }).2.2.1 rfl (by decide) (by decide)
  · exact (offer_dedup_and_first_write_wins "example.com" []
      [((1:ℚ)/2, { url := urlB, text := "" })] (initState urlA) urlA (1/2)
      { url := urlA, text := "" }).2.2.2 rfl (by decide) (by decide)

/-- C8: the admissibility filter rejects every URL whose host is not exactly
the target domain; it rejects every URL whose lower-cased path contains a
denylisted substring; and in particular a link whose path contains the string
slash-tag-slash is never offered to the frontier — the frontier state is left
untouched — regardless of its score. -/
theorem admissibility_filter_rejections (dom : String) (u : Url) (visited : List Url)
    (kws : List String) (rel : ℚ) (st : CrawlState) (t : String) :
    (u.netloc ≠ dom → is_valid_url dom u visited = false)
    ∧ (∀ pat ∈ irrelevant_patterns, strIn pat (lowerStr u.path) = true →
        is_valid_url dom u visited = false)
    ∧ (strIn "/tag/" (lowerStr u.path) = true →
        offerLink dom kws rel st { url := u, text := t } = st) := by
  refine ⟨?_, ?_, ?_⟩
  · intro hne
    unfold is_valid_url
    dsimp only
    split
    · rfl
    · simp [hne]
  · intro pat hpat hsub
    exact is_valid_url_denylist dom u visited pat hpat hsub
  · intro hsub
    have hv := is_valid_url_denylist dom u st.visited "/tag/" (by decide) hsub
    unfold offerLink
    dsimp only
    rw [hv]
    simp

/-- C8 witness: a foreign host is rejected, a path containing the
slash-tag-slash marker is rejected, and offering such a link leaves the
frontier state untouched. -/
theorem admissibility_filter_rejections_w :
    is_valid_url "example.com" { netloc := "other.com", path := "/p" } [] = false
    ∧ is_valid_url "example.com" { netloc := "example.com", path := "/tag/x" } [] = false
    ∧ offerLink "example.com" ["x"] 1 (initState urlA)
        { url := { netloc := "example.com", path := "/tag/x" }, text := "" }
        = initState urlA := by
  refine ⟨?_, ?_, ?_⟩
  · exact (admissibility_filter_rejections "example.com"
      { netloc := "other.com", path := "/p" } [] ["x"] 1 (initState urlA) "").1 (by decide)
  · exact (admissibility_filter_rejections "example.com"
      { netloc := "example.com", path := "/tag/x" } [] ["x"] 1 (initState urlA) "").2.1
      "/tag/" (by decide) (by decide)
  · exact (admissibility_filter_rejections "example.com"
      { netloc := "example.com", path := "/tag/x" } [] ["x"] 1 (initState urlA) "").2.2
      (by decide)

end Webscraper
